import Mathlib

/-!
Shallow embedding of the Markdowner native backend (src/src-tauri/src/lib.rs
and src/src-tauri/src/print.rs).

Filesystem and windowing effects are modelled by explicit oracles
(`FileSystem`, window lists); machine strings are Lean `String`s; Rust
`u64` timestamps are `Nat` (the code only formats them, never overflows
in any claim under study).
-/

namespace Markdowner

/-- lib.rs line 36: `const MAX_RECENT_FILES: usize = 10;` -/
def MAX_RECENT_FILES : Nat := 10

/-- lib.rs lines 369-385, `add_to_recents_internal` acting on the in-memory
sequence: `retain(|p| p != &path)`, `insert(0, path)`, then
`if len > MAX_RECENT_FILES { truncate(MAX_RECENT_FILES) }`. -/
def add_to_recents_internal (recents : List String) (path : String) : List String :=
  let kept := recents.filter (fun p => p ≠ path)
  let fronted := path :: kept
  if fronted.length > MAX_RECENT_FILES then fronted.take MAX_RECENT_FILES else fronted

/-- lib.rs lines 211-229, `load_recent_files_from_store`: the persisted value,
when the store opens and the key deserializes to a string list, is filtered by
filesystem existence and truncated with `take(MAX_RECENT_FILES)`; every
failure path returns the empty vector. `stored = none` models a missing
store, a missing key, or a deserialization failure. -/
def load_recent_files_from_store (stored : Option (List String))
    (fsExists : String → Bool) : List String :=
  match stored with
  | some files => (files.filter fsExists).take MAX_RECENT_FILES
  | none => []

/-- In-memory recents list plus the durable store entry written by
`save_recent_files_to_store` (lib.rs lines 232-244, happy path). -/
structure RecentStore where
  mem : List String
  persisted : Option (List String)

/-- lib.rs lines 369-385 at the state level: mutate the in-memory list and
persist the full resulting sequence. -/
def touchRecents (s : RecentStore) (path : String) : RecentStore :=
  let r := add_to_recents_internal s.mem path
  { mem := r, persisted := some r }

/-- lib.rs lines 388-394, `get_recent_files`: returns a clone of the
in-memory list without mutating it. -/
def get_recent_files (s : RecentStore) : List String :=
  s.mem

/-- lib.rs lines 408-418, `clear_recent_files`: clears memory and persists
the empty sequence. -/
def clear_recent_files (_s : RecentStore) : RecentStore :=
  { mem := [], persisted := some [] }

/-- lib.rs lines 421-429, `get_pending_file`: `pending.take()` returns the
current slot value and leaves the slot empty. Result is
(returned value, slot afterwards). -/
def get_pending_file (slot : Option String) : Option String × Option String :=
  (slot, none)

/-- lib.rs lines 432-445, `set_pending_file`: `*pending = Some(path)`
unconditionally overwrites the slot (the event emission has no effect on
the slot state). -/
def set_pending_file (_slot : Option String) (path : String) : Option String :=
  some path

/-- Rust `Path::is_absolute` under the Unix rules the repository targets:
the path has a root, i.e. begins with a slash. -/
def is_absolute (p : String) : Bool :=
  p.data.head? == some '/'

/-- Rust `Path::parent` for ordinary paths without a trailing slash:
`none` for the root or the empty path, otherwise the path with its final
component and separating slash removed (with `some "/"` for a direct child
of the root and `some ""` for a bare relative component). -/
def parentPath (p : String) : Option String :=
  if p = "" || p = "/" then none
  else
    let rest := (p.data.reverse.dropWhile (fun c => c ≠ '/')).drop 1
    if rest.isEmpty && is_absolute p then some "/"
    else some (String.mk rest.reverse)

/-- lib.rs lines 167-172: metadata gathered by `validate_file_path`. -/
structure FileMetadata where
  pathExists : Bool
  is_file : Bool
  is_readable : Bool

/-- Oracle for every filesystem query the two commands make. Each field is a
pure snapshot of the answers the OS would give; quantifying a theorem over
all oracles expresses that the code result does not depend on the
corresponding query. `Except.error` carries the OS error text interpolated
by `format!`. -/
structure FileSystem where
  canonicalize : String → Except String String
  pathExists : String → Bool
  is_file : String → Bool
  openOk : String → Bool
  metadataLen : String → Except String Nat
  readToString : String → Except String String
  writeOk : String → String → Except String Unit

/-- lib.rs lines 175-208, `validate_file_path`: absoluteness check, then
canonicalization (the current-directory advisory on lines 185-191 only
prints and is dropped), then existence / regular-file / readability
snapshots of the canonical path. -/
def validate_file_path (fs : FileSystem) (path : String) : Except String FileMetadata :=
  if !is_absolute path then .error "File path must be absolute"
  else
    match fs.canonicalize path with
    | .error e => .error ("Invalid path: " ++ e)
    | .ok canonical =>
      let ex := fs.pathExists canonical
      let isf := fs.is_file canonical
      let isr := if ex && isf then fs.openOk canonical else false
      .ok ⟨ex, isf, isr⟩

/-- lib.rs line 269: `const MAX_FILE_SIZE: u64 = 10 * 1024 * 1024;` -/
def MAX_FILE_SIZE : Nat := 10 * 1024 * 1024

/-- lib.rs line 303: `const MAX_CONTENT_SIZE: usize = 10 * 1024 * 1024;` -/
def MAX_CONTENT_SIZE : Nat := 10 * 1024 * 1024

/-- lib.rs lines 247-278, `read_file`: validation, the existence /
regular-file / readability gates, the size gate on `fs::metadata(&path)`
of the original path, then `fs::read_to_string(&path)`. -/
def read_file (fs : FileSystem) (path : String) : Except String String :=
  match validate_file_path fs path with
  | .error e => .error ("Path validation failed: " ++ e)
  | .ok metadata =>
    if !metadata.pathExists then .error "File does not exist"
    else if !metadata.is_file then .error "Path is not a file"
    else if !metadata.is_readable then .error "File is not readable"
    else
      match fs.metadataLen path with
      | .error e => .error ("Failed to read file metadata: " ++ e)
      | .ok len =>
        if len > MAX_FILE_SIZE then .error "File is too large (max 10MB)"
        else
          match fs.readToString path with
          | .ok content => .ok content
          | .error e => .error ("Failed to read file: " ++ e)

/-- lib.rs lines 281-312, `write_file`: absoluteness, existing-non-file,
missing-parent and content-size gates (in that order), then `fs::write`.
`content.utf8ByteSize` models Rust `String::len`, a UTF-8 byte count. -/
def write_file (fs : FileSystem) (path content : String) : Except String Unit :=
  if !is_absolute path then .error "File path must be absolute"
  else if fs.pathExists path && !fs.is_file path then .error "Path is not a file"
  else if (parentPath path).any (fun par => !fs.pathExists par) then
    .error "Parent directory does not exist"
  else if content.utf8ByteSize > MAX_CONTENT_SIZE then
    .error "Content is too large (max 10MB)"
  else
    match fs.writeOk path content with
    | .ok _ => .ok ()
    | .error e => .error ("Failed to write file: " ++ e)

/-- print.rs lines 49-55: `while files.len() >= 10 { remove files.first() }`
acting on the `.html` directory entries already sorted oldest-first by
modification time. -/
def cleanupOldPrintFiles (files : List String) : List String :=
  if files.length ≥ 10 then cleanupOldPrintFiles (files.drop 1) else files
termination_by files.length
decreasing_by simp_all [List.length_drop]; omega

/-- print.rs lines 29-67 and 272-277, the temp-file phase of
`print_markdown`: evict oldest-first while at least 10 files remain, then
write the new file (which becomes the newest entry, hence last in
oldest-first order). -/
def print_temp_phase (prior : List String) (newFile : String) : List String :=
  cleanupOldPrintFiles prior ++ [newFile]

/-- print.rs lines 63-65: `title.replace(|c| !c.is_alphanumeric() && c != ' ', "_").replace(' ', "_")`
(alphanumeric taken at its ASCII core, which is where every claim lives). -/
def sanitize_title (title : String) : String :=
  String.mk
    ((title.data.map (fun c => if !c.isAlphanum && c ≠ ' ' then '_' else c)).map
      (fun c => if c = ' ' then '_' else c))

/-- Decimal rendering of a `u64` by `format!`: the base-10 digits,
most significant first, with zero rendered as "0". -/
def natDecString (n : Nat) : String :=
  if n = 0 then "0" else String.mk (((Nat.digits 10 n).map Nat.digitChar).reverse)

/-- print.rs line 66: `format!("{}_{}.html", safe_title, timestamp)`. -/
def print_filename (title : String) (timestamp : Nat) : String :=
  sanitize_title title ++ "_" ++ natDecString timestamp ++ ".html"

/-- print.rs line 73: `format!("print-hidden-{}", timestamp)`. -/
def print_window_label (timestamp : Nat) : String :=
  "print-hidden-" ++ natDecString timestamp

/-- One open webview window: its label and the result its `close()` call
would produce. -/
structure PrintWindow where
  label : String
  closeResult : Except String Unit

/-- print.rs lines 344-369, `close_print_window`: walk the window map, close
the first window whose label matches and return its (wrapped) close result;
fall through to `Ok(())` when no label matches. -/
def close_print_window (windows : List PrintWindow) (label : String) : Except String Unit :=
  match windows with
  | [] => .ok ()
  | w :: rest =>
    if w.label = label then
      match w.closeResult with
      | .ok _ => .ok ()
      | .error e => .error ("Failed to close window: " ++ e)
    else close_print_window rest label

/-- A concrete filesystem oracle that answers every query affirmatively,
used to evaluate the commands at concrete inputs. -/
def trivialFS : FileSystem where
  canonicalize := fun p => .ok p
  pathExists := fun _ => true
  is_file := fun _ => true
  openOk := fun _ => true
  metadataLen := fun _ => .ok 0
  readToString := fun _ => .ok ""
  writeOk := fun _ _ => .ok ()

/-- A concrete filesystem oracle whose files all report a size just over the
10 MiB ceiling. -/
def bigFileFS : FileSystem where
  canonicalize := fun p => .ok p
  pathExists := fun _ => true
  is_file := fun _ => true
  openOk := fun _ => true
  metadataLen := fun _ => .ok (10 * 1024 * 1024 + 1)
  readToString := fun _ => .ok ""
  writeOk := fun _ _ => .ok ()

/-! ## Helper lemmas -/

theorem utf8ByteSize_mk_replicate (n : Nat) :
    (String.mk (List.replicate n 'a')).utf8ByteSize = n := by
  induction n with
  | zero => rfl
  | succ k ih =>
    rw [List.replicate_succ]
    show String.utf8ByteSize.go ('a' :: List.replicate k 'a') = k + 1
    rw [String.utf8ByteSize.go]
    have hgo : String.utf8ByteSize.go (List.replicate k 'a') = k := ih
    rw [hgo]
    have hsz : Char.utf8Size 'a' = 1 := by decide
    rw [hsz]

theorem count_filter_ne_self (l : List String) (p : String) :
    (l.filter (fun q => q ≠ p)).count p = 0 := by
  rw [List.count_eq_zero]
  intro hmem
  have := (List.mem_filter.mp hmem).2
  simp at this

theorem touch_front_unique_aux (l : List String) (p : String) :
    (add_to_recents_internal l p).head? = some p ∧
    (add_to_recents_internal l p).count p = 1 ∧
    (add_to_recents_internal l p).length ≤ MAX_RECENT_FILES := by
  unfold add_to_recents_internal
  set kept := l.filter (fun q => q ≠ p) with hkept
  have hcount : kept.count p = 0 := count_filter_ne_self l p
  by_cases h : (p :: kept).length > MAX_RECENT_FILES
  · simp only [h, if_pos]
    refine ⟨?_, ?_, ?_⟩
    · show ((p :: kept).take MAX_RECENT_FILES).head? = some p
      rw [show MAX_RECENT_FILES = 9 + 1 from rfl, List.take_succ_cons]
      rfl
    · show ((p :: kept).take MAX_RECENT_FILES).count p = 1
      rw [show MAX_RECENT_FILES = 9 + 1 from rfl, List.take_succ_cons,
        List.count_cons_self]
      have hle : (kept.take 9).count p ≤ kept.count p :=
        (List.take_sublist 9 kept).count_le p
      omega
    · exact le_trans (List.length_take_le _ _) (le_refl _)
  · simp only [h, if_neg, not_false_iff]
    refine ⟨rfl, ?_, ?_⟩
    · rw [List.count_cons_self, hcount]
    · simp only [gt_iff_lt, not_lt] at h
      exact h

/-! ## Claim theorems -/

/-- Claim C1: for every prior registry state and path p, touch(p) leaves p at
the front, contains p exactly once, keeps at most 10 entries, and a second
touch(p) again leaves p exactly once, still at the front. -/
theorem touch_front_unique (s : RecentStore) (p : String) :
    (get_recent_files (touchRecents s p)).head? = some p ∧
    (get_recent_files (touchRecents s p)).count p = 1 ∧
    (get_recent_files (touchRecents s p)).length ≤ MAX_RECENT_FILES ∧
    (get_recent_files (touchRecents (touchRecents s p) p)).head? = some p ∧
    (get_recent_files (touchRecents (touchRecents s p) p)).count p = 1 := by
  obtain ⟨h1, h2, h3⟩ := touch_front_unique_aux s.mem p
  obtain ⟨h4, h5, _⟩ := touch_front_unique_aux (add_to_recents_internal s.mem p) p
  exact ⟨h1, h2, h3, h4, h5⟩

/-- Claim C4: the pending-open slot is take-once: set(a); set(b); take()
yields b and empties the slot, and a second take() before the next set()
yields empty. -/
theorem pending_take_once (s : Option String) (a b : String) :
    get_pending_file (set_pending_file (set_pending_file s a) b) = (some b, none) ∧
    get_pending_file
      (get_pending_file (set_pending_file (set_pending_file s a) b)).2 = (none, none) :=
  ⟨rfl, rfl⟩

/-- Claim C8: clear() empties the list, persists the empty sequence, and a
load() from the persisted-empty store installs an empty in-memory list,
whatever the filesystem says about existence. -/
theorem clear_then_empty (s : RecentStore) (ex : String → Bool) :
    get_recent_files (clear_recent_files s) = [] ∧
    (clear_recent_files s).persisted = some [] ∧
    load_recent_files_from_store (clear_recent_files s).persisted ex = [] :=
  ⟨rfl, rfl, rfl⟩

/-- Claim C2 counterexample: load() applied to externally-edited persisted
data with a duplicated existing path installs the duplicate: the code only
filters by existence and truncates, it never deduplicates. -/
theorem load_keeps_duplicates :
    ¬ (load_recent_files_from_store (some ["a", "a"]) (fun _ => true)).Nodup := by
  decide

/-- Claim C2 amended: touch preserves both invariants (no duplicates, length
at most 10); clear and list trivially preserve them; load always yields at
most 10 entries and yields a duplicate-free list provided the persisted
sequence itself has no duplicates (as is the case for data this program
persisted); malformed persisted data loads as the empty list. -/
theorem registry_invariants_amended (l stored : List String) (p : String)
    (ex : String → Bool) (hnd : l.Nodup) (hst : stored.Nodup) :
    (add_to_recents_internal l p).Nodup ∧
    (add_to_recents_internal l p).length ≤ MAX_RECENT_FILES ∧
    (load_recent_files_from_store (some stored) ex).Nodup ∧
    (load_recent_files_from_store (some stored) ex).length ≤ MAX_RECENT_FILES ∧
    load_recent_files_from_store none ex = [] ∧
    (get_recent_files (clear_recent_files ⟨l, some l⟩)).Nodup := by
  refine ⟨?_, (touch_front_unique_aux l p).2.2, ?_, ?_, rfl, by simp [get_recent_files, clear_recent_files]⟩
  · unfold add_to_recents_internal
    have hkept : (l.filter (fun q => q ≠ p)).Nodup := hnd.filter _
    have hnotmem : p ∉ l.filter (fun q => q ≠ p) := by
      intro hmem
      have := (List.mem_filter.mp hmem).2
      simp at this
    have hcons : (p :: l.filter (fun q => q ≠ p)).Nodup :=
      List.nodup_cons.mpr ⟨hnotmem, hkept⟩
    by_cases h : (p :: l.filter (fun q => q ≠ p)).length > MAX_RECENT_FILES
    · simp only [h, if_pos]
      exact (List.take_sublist _ _).nodup hcons
    · simp only [h, if_neg, not_false_iff]
      exact hcons
  · exact (List.take_sublist _ _).nodup (hst.filter _)
  · exact List.length_take_le _ _

/-- Witness for the amended C2 theorem at concrete inputs. -/
theorem registry_invariants_amended_witness :
    ((["a"] : List String).Nodup ∧ (["b", "c"] : List String).Nodup) ∧
    ((add_to_recents_internal ["a"] "x").Nodup ∧
      (add_to_recents_internal ["a"] "x").length ≤ MAX_RECENT_FILES ∧
      (load_recent_files_from_store (some ["b", "c"]) (fun _ => true)).Nodup ∧
      (load_recent_files_from_store (some ["b", "c"]) (fun _ => true)).length ≤
        MAX_RECENT_FILES ∧
      load_recent_files_from_store none (fun _ => true) = [] ∧
      (get_recent_files (clear_recent_files ⟨["a"], some ["a"]⟩)).Nodup) :=
  ⟨⟨by decide, by decide⟩,
    registry_invariants_amended ["a"] ["b", "c"] "x" (fun _ => true)
      (by decide) (by decide)⟩

theorem cleanupOldPrintFiles_of_lt (l : List String) (h : l.length < 10) :
    cleanupOldPrintFiles l = l := by
  unfold cleanupOldPrintFiles
  rw [if_neg (by omega)]

theorem cleanupOldPrintFiles_step (l : List String) (h : l.length ≥ 10) :
    cleanupOldPrintFiles l = cleanupOldPrintFiles (l.drop 1) := by
  conv_lhs => unfold cleanupOldPrintFiles
  rw [if_pos h]

theorem cleanupOldPrintFiles_length (l : List String) :
    (cleanupOldPrintFiles l).length ≤ 9 := by
  by_cases h : l.length ≥ 10
  · rw [cleanupOldPrintFiles_step l h]
    exact cleanupOldPrintFiles_length (l.drop 1)
  · rw [cleanupOldPrintFiles_of_lt l (by omega)]
    omega
termination_by l.length
decreasing_by simp_all [List.length_drop]; omega

theorem cleanupOldPrintFiles_suffix (l : List String) :
    cleanupOldPrintFiles l <:+ l := by
  by_cases h : l.length ≥ 10
  · rw [cleanupOldPrintFiles_step l h]
    exact (cleanupOldPrintFiles_suffix (l.drop 1)).trans (List.drop_suffix 1 l)
  · rw [cleanupOldPrintFiles_of_lt l (by omega)]
termination_by l.length
decreasing_by simp_all [List.length_drop]; omega

/-- Claim C3: the temp-file phase of print_markdown leaves at most 10 files,
evicts from the oldest end only (the retained prior files are a suffix of
the oldest-first listing), and with exactly 10 prior files exactly 10 remain
afterwards with the oldest pre-existing file removed. -/
theorem print_temp_retention (prior : List String) (f : String) :
    (print_temp_phase prior f).length ≤ 10 ∧
    cleanupOldPrintFiles prior <:+ prior ∧
    (prior.length = 10 →
      print_temp_phase prior f = prior.drop 1 ++ [f] ∧
      (print_temp_phase prior f).length = 10) := by
  refine ⟨?_, cleanupOldPrintFiles_suffix prior, ?_⟩
  · have := cleanupOldPrintFiles_length prior
    simp only [print_temp_phase, List.length_append, List.length_cons,
      List.length_nil]
    omega
  · intro h10
    have hstep := cleanupOldPrintFiles_step prior (by omega)
    have hrest : cleanupOldPrintFiles (prior.drop 1) = prior.drop 1 :=
      cleanupOldPrintFiles_of_lt _ (by simp [List.length_drop]; omega)
    have heq : print_temp_phase prior f = prior.drop 1 ++ [f] := by
      rw [print_temp_phase, hstep, hrest]
    refine ⟨heq, ?_⟩
    rw [heq]
    simp [List.length_append, List.length_drop, h10]

/-- Witness for C3 at a directory holding exactly 10 prior print files. -/
theorem print_temp_retention_witness :
    (["a0", "a1", "a2", "a3", "a4", "a5", "a6", "a7", "a8", "a9"] : List String).length
      = 10 ∧
    (print_temp_phase ["a0", "a1", "a2", "a3", "a4", "a5", "a6", "a7", "a8", "a9"] "new" =
      ["a0", "a1", "a2", "a3", "a4", "a5", "a6", "a7", "a8", "a9"].drop 1 ++ ["new"] ∧
      (print_temp_phase ["a0", "a1", "a2", "a3", "a4", "a5", "a6", "a7", "a8", "a9"]
        "new").length = 10) :=
  ⟨by decide,
    (print_temp_retention ["a0", "a1", "a2", "a3", "a4", "a5", "a6", "a7", "a8", "a9"]
      "new").2.2 (by decide)⟩

/-- Claim C5: a non-absolute path is rejected by both commands with the
absolute-path error. The result is the same for every filesystem oracle, so
no filesystem access influences (or is needed for) the rejection. -/
theorem absolute_path_required (fs : FileSystem) (path content : String)
    (h : is_absolute path = false) :
    read_file fs path = .error "Path validation failed: File path must be absolute" ∧
    write_file fs path content = .error "File path must be absolute" := by
  constructor
  · show read_file fs path = _
    unfold read_file validate_file_path
    rw [h]
    rfl
  · unfold write_file
    rw [h]
    rfl

/-- Witness for C5 at the relative path from the spec example. -/
theorem absolute_path_required_witness :
    is_absolute "notes.md" = false ∧
    (read_file trivialFS "notes.md" =
        .error "Path validation failed: File path must be absolute" ∧
      write_file trivialFS "notes.md" "x" = .error "File path must be absolute") :=
  ⟨by decide, absolute_path_required trivialFS "notes.md" "x" (by decide)⟩

/-- Claim C6: content over 10 MiB is never written (the write command
errors for every filesystem oracle) and, when the path clears the earlier
path checks, errors with exactly the size-limit message; a readable regular
file whose reported size exceeds 10 MiB makes the read command fail with
the size-limit message without consulting the content-reading oracle. -/
theorem size_limit_enforced (fs : FileSystem) (path content cp : String) (len : Nat) :
    (content.utf8ByteSize > MAX_CONTENT_SIZE →
      (∀ u, write_file fs path content ≠ .ok u) ∧
      (is_absolute path = true →
        (fs.pathExists path && !fs.is_file path) = false →
        (parentPath path).any (fun par => !fs.pathExists par) = false →
        write_file fs path content = .error "Content is too large (max 10MB)")) ∧
    (is_absolute path = true →
      fs.canonicalize path = .ok cp →
      fs.pathExists cp = true →
      fs.is_file cp = true →
      fs.openOk cp = true →
      fs.metadataLen path = .ok len →
      len > MAX_FILE_SIZE →
      read_file fs path = .error "File is too large (max 10MB)") := by
  constructor
  · intro hc
    constructor
    · intro u
      unfold write_file
      by_cases h1 : is_absolute path
      · rw [h1]
        by_cases h2 : (fs.pathExists path && !fs.is_file path) = true
        · simp [h2]
        · simp only [Bool.not_eq_true] at h2
          rw [h2]
          by_cases h3 : (parentPath path).any (fun par => !fs.pathExists par) = true
          · simp [h3]
          · simp only [Bool.not_eq_true] at h3
            rw [h3]
            simp [if_pos hc]
      · simp only [Bool.not_eq_true] at h1
        rw [h1]
        simp
    · intro habs h2 h3
      unfold write_file
      rw [habs, h2, h3]
      simp [if_pos hc]
  · intro habs hcanon hex hfile hopen hmeta hlen
    unfold read_file validate_file_path
    rw [habs, hcanon]
    simp only [hex, hfile, hopen, Bool.not_true, Bool.false_eq_true, if_false,
      Bool.and_self, if_true]
    rw [hmeta]
    simp [if_pos hlen]

/-- Witness for C6: an oversized write payload and an oversized on-disk
file at concrete inputs. -/
theorem size_limit_enforced_witness :
    (String.mk (List.replicate (MAX_CONTENT_SIZE + 1) 'a')).utf8ByteSize >
      MAX_CONTENT_SIZE ∧
    write_file bigFileFS "/notes.md" (String.mk (List.replicate (MAX_CONTENT_SIZE + 1) 'a')) =
      .error "Content is too large (max 10MB)" ∧
    read_file bigFileFS "/big.md" = .error "File is too large (max 10MB)" := by
  have hsz : (String.mk (List.replicate (MAX_CONTENT_SIZE + 1) 'a')).utf8ByteSize >
      MAX_CONTENT_SIZE := by
    rw [utf8ByteSize_mk_replicate]
    omega
  refine ⟨hsz, ?_, ?_⟩
  · exact ((size_limit_enforced bigFileFS "/notes.md"
      (String.mk (List.replicate (MAX_CONTENT_SIZE + 1) 'a')) "/notes.md"
      (10 * 1024 * 1024 + 1)).1 hsz).2 (by decide) (by decide) (by decide)
  · exact (size_limit_enforced bigFileFS "/big.md" "" "/big.md"
      (10 * 1024 * 1024 + 1)).2 (by decide) rfl rfl rfl rfl rfl (by decide)

theorem validate_ok_canonical (fs : FileSystem) (path : String) (m : FileMetadata)
    (h : validate_file_path fs path = .ok m) :
    ∃ cp, fs.canonicalize path = .ok cp ∧ m.pathExists = fs.pathExists cp := by
  unfold validate_file_path at h
  by_cases habs : is_absolute path
  · rw [habs] at h
    simp only [Bool.not_true, Bool.false_eq_true, if_false] at h
    cases hc : fs.canonicalize path with
    | error e =>
      rw [hc] at h
      exact absurd h (by simp)
    | ok cp =>
      rw [hc] at h
      refine ⟨cp, rfl, ?_⟩
      have := Except.ok.inj h
      rw [← this]
  · simp only [Bool.not_eq_true] at habs
    rw [habs] at h
    exact absurd h (by simp)

/-- Claim C10: under a stable filesystem (whatever canonicalization
resolves exists), read_file never returns the not-found error: that branch
is unreachable. -/
theorem not_found_unreachable (fs : FileSystem) (path : String)
    (hstable : ∀ p cp, fs.canonicalize p = .ok cp → fs.pathExists cp = true) :
    read_file fs path ≠ .error "File does not exist" := by
  unfold read_file
  cases hv : validate_file_path fs path with
  | error e =>
    intro hcontra
    have hlen := congrArg String.length (Except.error.inj hcontra)
    rw [String.length_append] at hlen
    have h1 : ("Path validation failed: " : String).length = 24 := by decide
    have h2 : ("File does not exist" : String).length = 19 := by decide
    omega
  | ok m =>
    obtain ⟨cp, hc, hex⟩ := validate_ok_canonical fs path m hv
    have hmex : m.pathExists = true := by rw [hex]; exact hstable path cp hc
    dsimp only
    rw [hmex]
    simp only [Bool.not_true, Bool.false_eq_true, if_false]
    by_cases hf : m.is_file
    · rw [hf]
      simp only [Bool.not_true, Bool.false_eq_true, if_false]
      by_cases hr : m.is_readable
      · rw [hr]
        simp only [Bool.not_true, Bool.false_eq_true, if_false]
        cases hm : fs.metadataLen path with
        | error e =>
          intro hcontra
          have hlen := congrArg String.length (Except.error.inj hcontra)
          rw [String.length_append] at hlen
          have h1 : ("Failed to read file metadata: " : String).length = 30 := by decide
          have h2 : ("File does not exist" : String).length = 19 := by decide
          omega
        | ok len =>
          dsimp only
          by_cases hbig : len > MAX_FILE_SIZE
          · rw [if_pos hbig]
            intro hcontra
            exact absurd (Except.error.inj hcontra) (by decide)
          · rw [if_neg hbig]
            cases hr2 : fs.readToString path with
            | ok content => simp
            | error e =>
              intro hcontra
              have hlen := congrArg String.length (Except.error.inj hcontra)
              rw [String.length_append] at hlen
              have h1 : ("Failed to read file: " : String).length = 21 := by decide
              have h2 : ("File does not exist" : String).length = 19 := by decide
              omega
      · simp only [Bool.not_eq_true] at hr
        rw [hr]
        intro hcontra
        exact absurd (Except.error.inj hcontra) (by decide)
    · simp only [Bool.not_eq_true] at hf
      rw [hf]
      intro hcontra
      exact absurd (Except.error.inj hcontra) (by decide)

/-- Witness for C10 at a concrete stable filesystem and path. -/
theorem not_found_unreachable_witness :
    (∀ p cp, trivialFS.canonicalize p = .ok cp → trivialFS.pathExists cp = true) ∧
    read_file trivialFS "/a.md" ≠ .error "File does not exist" :=
  ⟨fun _ _ _ => rfl,
    not_found_unreachable trivialFS "/a.md" (fun _ _ _ => rfl)⟩

theorem digitChar_inj_lt : ∀ a < 10, ∀ b < 10, Nat.digitChar a = Nat.digitChar b → a = b := by
  decide

theorem map_digitChar_inj (l1 : List Nat) :
    ∀ l2 : List Nat, (∀ d ∈ l1, d < 10) → (∀ d ∈ l2, d < 10) →
    l1.map Nat.digitChar = l2.map Nat.digitChar → l1 = l2 := by
  induction l1 with
  | nil =>
    intro l2 _ _ heq
    cases l2 with
    | nil => rfl
    | cons b bs => simp at heq
  | cons a as ih =>
    intro l2 h1 h2 heq
    cases l2 with
    | nil => simp at heq
    | cons b bs =>
      simp only [List.map_cons, List.cons.injEq] at heq
      have ha : a < 10 := h1 a (List.mem_cons_self _ _)
      have hb : b < 10 := h2 b (List.mem_cons_self _ _)
      have hab : a = b := digitChar_inj_lt a ha b hb heq.1
      have hrest : as = bs :=
        ih bs (fun d hd => h1 d (List.mem_cons_of_mem _ hd))
          (fun d hd => h2 d (List.mem_cons_of_mem _ hd)) heq.2
      rw [hab, hrest]

theorem natDecString_inj (m n : Nat) (h : natDecString m = natDecString n) : m = n := by
  have hdig : ∀ k : Nat, ∀ d ∈ Nat.digits 10 k, d < 10 :=
    fun k d hd => Nat.digits_lt_base (by norm_num) hd
  have digits_of_data : ∀ k j : Nat,
      ((Nat.digits 10 k).map Nat.digitChar).reverse =
        ((Nat.digits 10 j).map Nat.digitChar).reverse → k = j := by
    intro k j hkj
    have hrev := List.reverse_injective hkj
    have := map_digitChar_inj (Nat.digits 10 k) (Nat.digits 10 j)
      (hdig k) (hdig j) hrev
    exact Nat.digits.injective 10 this
  unfold natDecString at h
  by_cases hm : m = 0 <;> by_cases hn : n = 0
  · rw [hm, hn]
  · rw [if_pos hm, if_neg hn] at h
    exfalso
    have hdata := congrArg String.data h
    have hd0 : (Nat.digits 10 n).map Nat.digitChar = ['0'] := by
      have hrev : ((Nat.digits 10 n).map Nat.digitChar).reverse = ['0'] := hdata.symm
      have := congrArg List.reverse hrev
      simpa using this
    have : Nat.digits 10 n = [0] :=
      map_digitChar_inj (Nat.digits 10 n) [0] (hdig n) (by decide)
        (by rw [hd0]; rfl)
    have hn0 : n = 0 := by
      have hocd := Nat.ofDigits_digits 10 n
      rw [this] at hocd
      simpa using hocd.symm
    exact hn hn0
  · rw [if_neg hm, if_pos hn] at h
    exfalso
    have hdata := congrArg String.data h
    have hd0 : (Nat.digits 10 m).map Nat.digitChar = ['0'] := by
      have hrev : ((Nat.digits 10 m).map Nat.digitChar).reverse = ['0'] := hdata
      have := congrArg List.reverse hrev
      simpa using this
    have : Nat.digits 10 m = [0] :=
      map_digitChar_inj (Nat.digits 10 m) [0] (hdig m) (by decide)
        (by rw [hd0]; rfl)
    have hm0 : m = 0 := by
      have hocd := Nat.ofDigits_digits 10 m
      rw [this] at hocd
      simpa using hocd.symm
    exact hm hm0
  · rw [if_neg hm, if_neg hn] at h
    exact digits_of_data m n (congrArg String.data h)

theorem natDecString_no_underscore (n : Nat) :
    ∀ c ∈ (natDecString n).data, c ≠ '_' := by
  unfold natDecString
  by_cases hn : n = 0
  · rw [if_pos hn]
    decide
  · rw [if_neg hn]
    intro c hc
    obtain ⟨d, hd, hdc⟩ := List.mem_map.mp (List.mem_reverse.mp hc)
    have hlt : d < 10 := Nat.digits_lt_base (by norm_num) hd
    have hne : ∀ e < 10, Nat.digitChar e ≠ '_' := by decide
    rw [← hdc]
    exact hne d hlt

theorem append_last_underscore_inj (a : List Char) :
    ∀ b d1 d2 : List Char, '_' ∉ d1 → '_' ∉ d2 →
    a ++ '_' :: d1 = b ++ '_' :: d2 → d1 = d2 := by
  induction a with
  | nil =>
    intro b d1 d2 h1 h2 heq
    cases b with
    | nil => simpa using heq
    | cons y bs =>
      simp only [List.nil_append, List.cons_append, List.cons.injEq] at heq
      exfalso
      apply h1
      rw [heq.2]
      exact List.mem_append_right _ (List.mem_cons_self _ _)
  | cons x as ih =>
    intro b d1 d2 h1 h2 heq
    cases b with
    | nil =>
      simp only [List.cons_append, List.nil_append, List.cons.injEq] at heq
      exfalso
      apply h2
      rw [← heq.2]
      exact List.mem_append_right _ (List.mem_cons_self _ _)
    | cons y bs =>
      simp only [List.cons_append, List.cons.injEq] at heq
      exact ih bs d1 d2 h1 h2 heq.2

theorem dot_html_no_underscore : ∀ c ∈ (".html" : String).data, c ≠ '_' := by
  decide

/-- Claim C7 counterexample: two distinct print requests in the same second
whose titles sanitize to the same string produce the same temp filename
(and every pair of same-second requests shares the window label, which
depends only on the timestamp). -/
theorem print_filename_collision :
    ("a b" : String) ≠ "a_b" ∧
    print_filename "a b" 100 = print_filename "a_b" 100 ∧
    print_window_label 100 = print_window_label 100 := by
  refine ⟨by decide, ?_, rfl⟩
  unfold print_filename
  have hs : sanitize_title "a b" = sanitize_title "a_b" := by decide
  rw [hs]

/-- Claim C7 amended: collision resistance holds across seconds, not within
one: any two print requests with distinct whole-second timestamps produce
distinct temp filenames and distinct window labels, for all titles. -/
theorem print_names_distinct_timestamps (title1 title2 : String) (t1 t2 : Nat)
    (h : t1 ≠ t2) :
    print_filename title1 t1 ≠ print_filename title2 t2 ∧
    print_window_label t1 ≠ print_window_label t2 := by
  have hno1 : ('_' : Char) ∉ (natDecString t1).data ++ (".html" : String).data := by
    intro hmem
    rcases List.mem_append.mp hmem with hm | hm
    · exact natDecString_no_underscore t1 '_' hm rfl
    · exact dot_html_no_underscore '_' hm rfl
  have hno2 : ('_' : Char) ∉ (natDecString t2).data ++ (".html" : String).data := by
    intro hmem
    rcases List.mem_append.mp hmem with hm | hm
    · exact natDecString_no_underscore t2 '_' hm rfl
    · exact dot_html_no_underscore '_' hm rfl
  constructor
  · intro hcontra
    apply h
    have hdata := congrArg String.data hcontra
    simp only [print_filename, String.data_append, List.append_assoc] at hdata
    have hdata' : (sanitize_title title1).data ++
        ('_' :: ((natDecString t1).data ++ (".html" : String).data)) =
        (sanitize_title title2).data ++
        ('_' :: ((natDecString t2).data ++ (".html" : String).data)) := hdata
    have hsuff := append_last_underscore_inj (sanitize_title title1).data
      (sanitize_title title2).data _ _ hno1 hno2 hdata'
    have hdec : (natDecString t1).data = (natDecString t2).data :=
      List.append_cancel_right hsuff
    exact natDecString_inj t1 t2 (congrArg String.mk hdec)
  · intro hcontra
    apply h
    have hdata := congrArg String.data hcontra
    simp only [print_window_label, String.data_append] at hdata
    have hdec : (natDecString t1).data = (natDecString t2).data :=
      List.append_cancel_left hdata
    exact natDecString_inj t1 t2 (congrArg String.mk hdec)

/-- Witness for amended C7 at two concrete timestamps. -/
theorem print_names_distinct_timestamps_witness :
    (1 : Nat) ≠ 2 ∧
    (print_filename "My Notes" 1 ≠ print_filename "My Notes" 2 ∧
      print_window_label 1 ≠ print_window_label 2) :=
  ⟨by decide, print_names_distinct_timestamps "My Notes" "My Notes" 1 2 (by decide)⟩

/-- Claim C9: closing a print window by label succeeds as a no-op when no
window carries that label; when some window carries the label, the result
is success exactly when that window closes successfully and the wrapped
close error otherwise. -/
theorem close_print_window_spec (windows : List PrintWindow) (label : String)
    (w : PrintWindow) :
    ((∀ v ∈ windows, v.label ≠ label) → close_print_window windows label = .ok ()) ∧
    (windows.find? (fun v => v.label = label) = some w →
      ((∀ u, w.closeResult = .ok u → close_print_window windows label = .ok ()) ∧
        (∀ e, w.closeResult = .error e →
          close_print_window windows label =
            .error ("Failed to close window: " ++ e)))) := by
  induction windows with
  | nil =>
    refine ⟨fun _ => rfl, fun hfind => ?_⟩
    simp [List.find?] at hfind
  | cons v rest ih =>
    constructor
    · intro hnone
      have hv : v.label ≠ label := hnone v (List.mem_cons_self _ _)
      show close_print_window (v :: rest) label = .ok ()
      unfold close_print_window
      rw [if_neg hv]
      exact ih.1 (fun u hu => hnone u (List.mem_cons_of_mem _ hu))
    · intro hfind
      by_cases hv : v.label = label
      · have hwv : v = w := by
          rw [List.find?_cons_of_pos _ (by simp [hv])] at hfind
          exact Option.some.inj hfind
        constructor
        · intro u hu
          unfold close_print_window
          rw [if_pos hv, hwv, hu]
        · intro e he
          unfold close_print_window
          rw [if_pos hv, hwv, he]
      · have hfind' : rest.find? (fun v => v.label = label) = some w := by
          rw [List.find?_cons_of_neg _ (by simp [hv])] at hfind
          exact hfind
        constructor
        · intro u hu
          unfold close_print_window
          rw [if_neg hv]
          exact (ih.2 hfind').1 u hu
        · intro e he
          unfold close_print_window
          rw [if_neg hv]
          exact (ih.2 hfind').2 e he

/-- Witness for C9: a missing label is a no-op success; a failing close on
the matching window surfaces the wrapped error; a succeeding close yields
success. -/
theorem close_print_window_spec_witness :
    close_print_window [⟨"main", .ok ()⟩] "print-hidden-7" = .ok () ∧
    close_print_window [⟨"print-hidden-7", .error "gone"⟩] "print-hidden-7" =
      .error "Failed to close window: gone" ∧
    close_print_window [⟨"print-hidden-7", .ok ()⟩] "print-hidden-7" = .ok () := by
  refine ⟨?_, ?_, ?_⟩
  · exact (close_print_window_spec [⟨"main", .ok ()⟩] "print-hidden-7"
      ⟨"main", .ok ()⟩).1 (by decide)
  · exact ((close_print_window_spec [⟨"print-hidden-7", .error "gone"⟩] "print-hidden-7"
      ⟨"print-hidden-7", .error "gone"⟩).2 (by simp [List.find?])).2 "gone" rfl
  · exact ((close_print_window_spec [⟨"print-hidden-7", .ok ()⟩] "print-hidden-7"
      ⟨"print-hidden-7", .ok ()⟩).2 (by simp [List.find?])).1 () rfl

end Markdowner
